import Mathlib

/-!
Verification development for the storage access core of a disk-backed DBMS:
an LRU-K replacer, a buffer pool manager backed by an extendible hash
directory, and a B+ tree index.  Each definition below is a shallow
embedding of the corresponding C++ function; machine integers are modelled
as `Nat`/`Int`, C++ exceptions as an explicit `Res.thrown` result (state
mutations performed before the throw persist, as in C++), and the current
wall-clock timestamp of `RecordAccess` is passed in as an explicit
argument (it is strictly monotone across calls in the modelled traces).
-/

namespace StorageCore

/-- Outcome of a C++ call: a normal return, or an exception escaping it.
The state returned alongside `thrown` is the state at the throw point. -/
inductive Res (α : Type) where
  | ok (a : α) : Res α
  | thrown : Res α
deriving Repr, DecidableEq

/-! ## LRU-K replacer (`src/buffer/lru_k_replacer.cpp`, `lru_k_replacer.h`)

The `frame` class holds `access_rec`, a `std::vector<size_t>` constructed
with `reserve(k)`.  The constructor only reserves: `size()` stays `0`, yet
the code writes `access_rec[0] = ts` on first access and the comparator
reads `access_rec[0]` of such frames.  We model the vector by its reserved
backing store `rec` (length `k`, unwritten cells read as `0`) plus the
logical size `vsize`; `operator[]` reads/writes the store, `push_back`
writes cell `vsize` and increments `vsize` (thereby overwriting the cell
the first access wrote, exactly as the compiled program does). -/

structure RFrame where
  id : Nat
  evictable : Bool
  k : Nat
  n_access : Nat
  arec : List Nat
  vsize : Nat
  cur : Nat
  earliest : Nat
deriving Repr, DecidableEq

/-- `frame::frame(size_t lruk)`: all counters zero, `access_rec.reserve(lruk)`. -/
def mkFrame (k : Nat) : RFrame :=
  { id := 0, evictable := false, k := k, n_access := 0
    arec := List.replicate k 0, vsize := 0, cur := 0, earliest := 0 }

/-- `LRUKReplacer::MyCompare` (lru_k_replacer.h:150-162).  Note the last
branch compares `f1.access_rec[f1.earliest]` against
`f2.access_rec[f1.earliest]` — the index `f1.earliest` is used for both
frames, exactly as in the source. -/
def MyCompare (f1 f2 : RFrame) : Bool :=
  if f1.n_access < f1.k ∧ f2.n_access < f2.k then
    decide (f1.arec.getD 0 0 < f2.arec.getD 0 0)
  else if f1.n_access < f1.k then
    true
  else if f2.n_access < f2.k then
    false
  else
    decide (f1.arec.getD f1.earliest 0 < f2.arec.getD f1.earliest 0)

/-- `std::multiset<frame, MyCompare>::insert`: the new element is placed
at its upper bound, i.e. before the first stored element it compares
strictly below, after all elements it does not. -/
def msetInsert (x : RFrame) : List RFrame → List RFrame
  | [] => [x]
  | e :: t => if MyCompare x e then x :: e :: t else e :: msetInsert x t

/-- Erase the unique copy carrying `fid` (the source locates it with
`lower_bound` plus a forward scan on `id`; ids are unique in the tree
because every insertion is paired with an erase of the same id). -/
def eraseId (fid : Nat) : List RFrame → List RFrame
  | [] => []
  | e :: t => if e.id = fid then t else e :: eraseId fid t

/-- `id2it` lookup: the (unique) `lru` list entry for `fid`. -/
def lookupFrame (l : List RFrame) (fid : Nat) : Option RFrame :=
  l.find? (fun f => f.id == fid)

/-- Overwrite the `lru` list entry for `fid` in place. -/
def setFrame (l : List RFrame) (fid : Nat) (f : RFrame) : List RFrame :=
  l.map (fun e => if e.id == fid then f else e)

/-- State of `LRUKReplacer`: the `lru` list (whose entries `id2it` points
at), the ordered `tree` multiset of copies, and the counters. -/
structure Replacer where
  lru : List RFrame
  tree : List RFrame
  curr_size : Nat
  replacer_size : Nat
  k : Nat
deriving Repr, DecidableEq

/-- `LRUKReplacer::LRUKReplacer(num_frames, k)`. -/
def Replacer.init (numFrames k : Nat) : Replacer :=
  { lru := [], tree := [], curr_size := 0, replacer_size := numFrames, k := k }

/-- `LRUKReplacer::RecordAccess` (lru_k_replacer.cpp:61-106).  The range
check is `frame_id > replacer_size_` (strict).  `ts` is the millisecond
timestamp the call samples from the system clock. -/
def recordAccess (r : Replacer) (fid : Nat) (ts : Nat) : Replacer × Res Unit :=
  if fid > r.replacer_size then (r, .thrown)
  else
    match lookupFrame r.lru fid with
    | none =>
      if r.k = 0 then (r, .thrown)   -- frame ctor throws when lruk <= 0
      else
        let frm : RFrame :=
          { mkFrame r.k with
              arec := (List.replicate r.k 0).set 0 ts
              id := fid
              cur := 1
              n_access := 1 }
        ({ r with tree := msetInsert frm r.tree, lru := r.lru ++ [frm] }, .ok ())
    | some f =>
      if f.vsize < f.k then
        let f2 : RFrame :=
          { f with
              arec := f.arec.set f.vsize ts
              vsize := f.vsize + 1
              cur := f.cur + 1
              n_access := f.n_access + 1 }
        ({ r with
             tree := msetInsert f2 (eraseId fid r.tree)
             lru := setFrame r.lru fid f2 }, .ok ())
      else
        let c := f.cur % f.k
        let f2 : RFrame :=
          { f with
              cur := c + 1
              arec := f.arec.set c ts
              earliest := (c + 1) % f.k
              n_access := f.n_access + 1 }
        ({ r with
             tree := msetInsert f2 (eraseId fid r.tree)
             lru := setFrame r.lru fid f2 }, .ok ())

/-- `LRUKReplacer::SetEvictable` (lru_k_replacer.cpp:108-121): throws on
`frame_id > replacer_size_` and also when the frame has no record.
(The `--curr_size_` underflow of `size_t` cannot occur in the traces
evaluated here, so `Nat` subtraction is adequate.) -/
def setEvictable (r : Replacer) (fid : Nat) (b : Bool) : Replacer × Res Unit :=
  if fid > r.replacer_size then (r, .thrown)
  else
    match lookupFrame r.lru fid with
    | none => (r, .thrown)
    | some f =>
      let sz := if f.evictable ≠ b then
                  (if b then r.curr_size + 1 else r.curr_size - 1)
                else r.curr_size
      ({ r with
           curr_size := sz
           lru := setFrame r.lru fid { f with evictable := b } }, .ok ())

/-- `LRUKReplacer::Remove` (lru_k_replacer.cpp:123-135): unknown frame is
a no-op, non-evictable known frame throws; note this version does not
touch `curr_size_`. -/
def removeFrame (r : Replacer) (fid : Nat) : Replacer × Res Unit :=
  if fid > r.replacer_size then (r, .thrown)
  else
    match lookupFrame r.lru fid with
    | none => (r, .ok ())
    | some f =>
      if f.evictable = false then (r, .thrown)
      else ({ r with lru := eraseId fid r.lru, tree := eraseId fid r.tree }, .ok ())

/-- `Evict`'s scan over `tree` from `begin()`: skip copies whose `lru`
entry is not evictable, return the first evictable id.  (Every tree copy
has an `lru` entry; the `none` arm is unreachable and skips.) -/
def evictScan (l : List RFrame) : List RFrame → Option Nat
  | [] => none
  | c :: t =>
    match lookupFrame l c.id with
    | some f => if f.evictable then some c.id else evictScan l t
    | none => evictScan l t

/-- `LRUKReplacer::Evict` (lru_k_replacer.cpp:21-59). -/
def evict (r : Replacer) : Replacer × Option Nat :=
  if r.curr_size > 0 then
    match evictScan r.lru r.tree with
    | some fid =>
      ({ r with
           lru := eraseId fid r.lru
           tree := eraseId fid r.tree
           curr_size := r.curr_size - 1 }, some fid)
    | none => (r, none)
  else (r, none)

/-- `LRUKReplacer::Size`. -/
def replacerSize (r : Replacer) : Nat := r.curr_size

/-! Concrete replacer trace for claim C6 (`pool_size = 7`, `k = 3`):
access frame 0 at t=1, frame 1 at t=2, frame 0 at t=3, then mark both
evictable.  Both frames are cold (fewer than `k = 3` recorded accesses),
and frame 0 has the earliest first access (t=1 < t=2), so the claimed
LRU-K policy must evict frame 0.  The code evicts frame 1: the first
access timestamp is written into the reserved-but-empty `access_rec`
(whose `size()` stays 0) and is overwritten by the next `push_back`, so
frame 0 is ordered by its second timestamp t=3 instead of t=1. -/

def c6Trace1 : Replacer := (recordAccess (Replacer.init 7 3) 0 1).1

def c6Trace2 : Replacer := (recordAccess c6Trace1 1 2).1

def c6Trace3 : Replacer := (recordAccess c6Trace2 0 3).1

def c6Trace4 : Replacer := (setEvictable c6Trace3 0 true).1

def c6Trace5 : Replacer := (setEvictable c6Trace4 1 true).1

/-- C6: `Evict` does not return the evictable frame with maximum backward
k-distance.  In the trace above both frames have distance `+∞` (fewer
than `k` accesses each) and the tie must go to frame 0, whose first
access (t=1) precedes frame 1's (t=2); the code returns frame 1.  This
contradicts the eviction rule documented in lru_k_replacer.h:66-71
("If multiple frames have inf backward k-distance, then evict the frame
with the earliest timestamp overall"): `RecordAccess` loses the first
timestamp of every frame (written past `access_rec`'s size), and
`MyCompare` additionally indexes both frames by `f1.earliest`. -/
theorem lruk_evict_wrong_victim_c6 :
    (evict c6Trace5).2 = some 1 ∧
    (lookupFrame c6Trace5.lru 0).map RFrame.evictable = some true ∧
    (lookupFrame c6Trace5.lru 0).map RFrame.n_access = some 2 ∧
    (lookupFrame c6Trace5.lru 1).map RFrame.n_access = some 1 := by decide

/-- C7: `SetEvictable` on an in-range frame id (3, pool size 7) holding no
access record throws (lru_k_replacer.cpp:111) instead of being a no-op.
The claim — and the function's own contract in lru_k_replacer.h:104-106
("For other scenarios, this function should terminate without modifying
anything") — requires it not to fail. -/
theorem lruk_setEvictable_no_record_throws_c7 :
    setEvictable (Replacer.init 7 2) 3 true = (Replacer.init 7 2, Res.thrown) := by
  decide

/-- C8 (counterexample): the range check in all three operations is
`frame_id > replacer_size_` (strict), so the boundary call
`RecordAccess(pool_size)` on a replacer with `pool_size = 1` succeeds —
it creates an access record — refuting the claim that every
`frame_id ≥ pool_size` fails. -/
theorem lruk_boundary_accepted_c8_counterexample :
    (recordAccess (Replacer.init 1 2) 1 5).2 = Res.ok () := by decide

/-- C8 (amended): for every `frame_id` strictly greater than `pool_size`,
each of `RecordAccess`, `SetEvictable` and `Remove` throws without
modifying the replacer's state (each function performs the range check
before any mutation). -/
theorem lruk_out_of_range_ops_fail_c8 (r : Replacer) (fid : Nat)
    (h : fid > r.replacer_size) (b : Bool) (ts : Nat) :
    recordAccess r fid ts = (r, Res.thrown) ∧
    setEvictable r fid b = (r, Res.thrown) ∧
    removeFrame r fid = (r, Res.thrown) := by
  refine ⟨?_, ?_, ?_⟩
  · simp only [recordAccess, if_pos h]
  · simp only [setEvictable, if_pos h]
  · simp only [removeFrame, if_pos h]

/-- C8 witness: the amended theorem applied at pool size 1, frame id 2. -/
theorem lruk_out_of_range_ops_fail_c8_witness :
    recordAccess (Replacer.init 1 2) 2 0 = (Replacer.init 1 2, Res.thrown) ∧
    setEvictable (Replacer.init 1 2) 2 true = (Replacer.init 1 2, Res.thrown) ∧
    removeFrame (Replacer.init 1 2) 2 = (Replacer.init 1 2, Res.thrown) :=
  lruk_out_of_range_ops_fail_c8 (Replacer.init 1 2) 2 (by decide) true 0

/-! ## Extendible hash directory (`src/container/hash/extendible_hash_table.cpp`)

Instantiated at `ExtendibleHashTable<page_id_t, frame_id_t>`: keys are
page ids (`Int`, sentinel `-1`), values frame ids (`Nat`).  `std::hash`
on an `int` is the identity, so `IndexOf(key) = key mod 2^global_depth`
(`&` with the low-bit mask on two's complement equals `emod`).  The
directory stores `shared_ptr<Bucket>`s with aliasing; we model the heap
of buckets as `store` and the directory as a list of indices into it. -/

structure HBucket where
  list : List (Int × Nat)
  depth : Nat
  cap : Nat
deriving Repr, DecidableEq

/-- `Bucket::IsFull`. -/
def HBucket.isFull (b : HBucket) : Bool := b.list.length == b.cap

/-- `Bucket::Find`: linear scan of the bucket's list. -/
def HBucket.findKey (b : HBucket) (key : Int) : Option Nat :=
  (b.list.find? (fun kv => kv.1 == key)).map Prod.snd

/-- Erase the first pair carrying `key` (for `Bucket::Remove`). -/
def listEraseKey (key : Int) : List (Int × Nat) → List (Int × Nat)
  | [] => []
  | kv :: t => if kv.1 == key then t else kv :: listEraseKey key t

/-- Overwrite the value of the first pair carrying `key`. -/
def listOverwrite (key : Int) (v : Nat) : List (Int × Nat) → List (Int × Nat)
  | [] => []
  | kv :: t => if kv.1 == key then (kv.1, v) :: t else kv :: listOverwrite key v t

/-- `Bucket::Insert`: overwrite an existing key, else append when not
full; returns whether the insertion took place. -/
def HBucket.insertKV (b : HBucket) (key : Int) (v : Nat) : HBucket × Bool :=
  if (b.list.find? (fun kv => kv.1 == key)).isSome then
    ({ b with list := listOverwrite key v b.list }, true)
  else if b.isFull then (b, false)
  else ({ b with list := b.list ++ [(key, v)] }, true)

structure EHT where
  global_depth : Nat
  bucket_size : Nat
  num_buckets : Nat
  store : List HBucket
  dir : List Nat
deriving Repr, DecidableEq

/-- `ExtendibleHashTable(bucket_size)`: depth 0, one empty bucket. -/
def EHT.init (bucketSize : Nat) : EHT :=
  { global_depth := 0, bucket_size := bucketSize, num_buckets := 1
    store := [{ list := [], depth := 0, cap := bucketSize }]
    dir := [0] }

/-- `IndexOf(key) = hash(key) & ((1 << global_depth) - 1)`. -/
def EHT.IndexOf (t : EHT) (key : Int) : Nat :=
  (key % ((2 : Int) ^ t.global_depth)).toNat

def EHT.bucketAt (t : EHT) (idx : Nat) : HBucket :=
  t.store.getD (t.dir.getD idx 0) { list := [], depth := 0, cap := t.bucket_size }

/-- `ExtendibleHashTable::Find`. -/
def EHT.find (t : EHT) (key : Int) : Option Nat :=
  (t.bucketAt (t.IndexOf key)).findKey key

/-- `ExtendibleHashTable::Remove`. -/
def EHT.removeKey (t : EHT) (key : Int) : EHT × Bool :=
  let idx := t.IndexOf key
  let bref := t.dir.getD idx 0
  let b := t.store.getD bref { list := [], depth := 0, cap := t.bucket_size }
  if (b.list.find? (fun kv => kv.1 == key)).isSome then
    ({ t with store := t.store.set bref { b with list := listEraseKey key b.list } }, true)
  else (t, false)

/-- One iteration of `Insert`'s `while (dir_[idx]->IsFull())` split loop
plus the final `dir_[idx]->Insert(key, value)`.  The fuel bounds the
number of splits; with 32-bit keys 34 iterations can never be exhausted,
and the traces evaluated below never split at all. -/
def EHT.insertLoop (key : Int) (value : Nat) : EHT → Nat → EHT
  | t, 0 => t
  | t, fuel + 1 =>
    let idx := t.IndexOf key
    let bref := t.dir.getD idx 0
    let b := t.store.getD bref { list := [], depth := 0, cap := t.bucket_size }
    if b.isFull then
      let d := b.depth
      -- if local depth equals global depth, double the directory
      let t1 := if d == t.global_depth then
          { t with dir := t.dir ++ t.dir, global_depth := t.global_depth + 1 }
        else t
      -- two fresh buckets of depth d+1: `a` takes entries with bit d set
      let aref := t1.store.length
      let bref2 := t1.store.length + 1
      let bitOf : Int → Bool := fun k => (k % ((2 : Int) ^ (d + 1))).toNat / 2 ^ d == 1
      let abkt : HBucket :=
        { list := b.list.filter (fun kv => bitOf kv.1), depth := d + 1, cap := t1.bucket_size }
      let bbkt : HBucket :=
        { list := b.list.filter (fun kv => !bitOf kv.1), depth := d + 1, cap := t1.bucket_size }
      let start := (key % ((2 : Int) ^ d)).toNat
      let dir2 := t1.dir.mapIdx (fun i ref =>
        if i % 2 ^ d == start then (if (i / 2 ^ d) % 2 == 1 then aref else bref2) else ref)
      let t2 : EHT :=
        { t1 with
            store := t1.store ++ [abkt, bbkt]
            dir := dir2
            num_buckets := t1.num_buckets + 1 }
      EHT.insertLoop key value t2 fuel
    else
      let b2 := (b.insertKV key value).1
      { t with store := t.store.set bref b2 }

/-- `ExtendibleHashTable::Insert`: overwrite an existing key, otherwise
split until the target bucket has room and append. -/
def EHT.insert (t : EHT) (key : Int) (value : Nat) : EHT :=
  let idx := t.IndexOf key
  let bref := t.dir.getD idx 0
  let b := t.store.getD bref { list := [], depth := 0, cap := t.bucket_size }
  if (b.list.find? (fun kv => kv.1 == key)).isSome then
    { t with store := t.store.set bref ((b.insertKV key value).1) }
  else
    EHT.insertLoop key value t 34

/-- All `(page_id, frame_id)` entries reachable through the directory. -/
def EHT.entries (t : EHT) : List (Int × Nat) :=
  (t.dir.dedup.map (fun ref =>
    (t.store.getD ref { list := [], depth := 0, cap := t.bucket_size }).list)).flatten

/-! ## Buffer pool manager
(`src/buffer/buffer_pool_manager_instance.cpp`, second listing, 107-263)

Frame metadata is `Page`'s out-of-band header: `page_id_` (`-1` when
never assigned), `pin_count_`, `is_dirty_`.  Disk I/O is recorded as the
list of page ids passed to `WritePage`; `ReadPage` has no metadata
effect.  `AllocatePage` is `next_page_id_++`.  The `bucket_size_` used
for the page table is the project's header constant 4.  `RecordAccess`
timestamps come from the manager's `clock`, bumped on every call. -/

structure BPage where
  page_id : Int
  pin_count : Int
  is_dirty : Bool
deriving Repr, DecidableEq

/-- A freshly constructed `Page`. -/
def BPage.initPage : BPage := { page_id := -1, pin_count := 0, is_dirty := false }

structure BPM where
  pool_size : Nat
  pages : List BPage
  page_table : EHT
  replacer : Replacer
  free_list : List Nat
  next_page_id : Int
  disk_writes : List Int
  clock : Nat
deriving Repr, DecidableEq

/-- `BufferPoolManagerInstance(pool_size, disk_manager, replacer_k, ...)`. -/
def BPM.init (poolSize k : Nat) : BPM :=
  { pool_size := poolSize
    pages := List.replicate poolSize BPage.initPage
    page_table := EHT.init 4
    replacer := Replacer.init poolSize k
    free_list := List.range poolSize
    next_page_id := 0
    disk_writes := []
    clock := 0 }

def BPM.pageAt (s : BPM) (fid : Nat) : BPage := s.pages.getD fid BPage.initPage

/-- `page_reset(fid, pgid)` (buffer_pool_manager_instance.cpp:140-151):
reset the frame header, install `pgid → fid` in the page table, then
`SetEvictable(fid, false)` and `RecordAccess(fid)` — in that order, so a
frame without a replacer record makes `SetEvictable` throw after the
header and page-table writes already happened. -/
def pageReset (s : BPM) (fid : Nat) (pgid : Int) : BPM × Res Unit :=
  let p1 : BPage := { page_id := pgid, pin_count := 1, is_dirty := false }
  let s1 : BPM := { s with pages := s.pages.set fid p1 }
  let s2 : BPM := { s1 with page_table := s1.page_table.insert pgid fid }
  match setEvictable s2.replacer fid false with
  | (r2, Res.thrown) => ({ s2 with replacer := r2 }, Res.thrown)
  | (r2, Res.ok _) =>
    let s3 : BPM := { s2 with replacer := r2 }
    match recordAccess s3.replacer fid s3.clock with
    | (r3, Res.thrown) => ({ s3 with replacer := r3, clock := s3.clock + 1 }, Res.thrown)
    | (r3, Res.ok _) => ({ s3 with replacer := r3, clock := s3.clock + 1 }, Res.ok ())

/-- `NewPgImp` (buffer_pool_manager_instance.cpp:153-175): free-list
frame first, else evict (writing back a dirty victim); the evicted
page-table mapping is never removed. -/
def newPgImp (s : BPM) : BPM × Res (Option (Int × Nat)) :=
  match s.free_list with
  | fid :: rest =>
    let s1 : BPM := { s with free_list := rest }
    let pgid := s1.next_page_id
    let s2 : BPM := { s1 with next_page_id := pgid + 1 }
    match pageReset s2 fid pgid with
    | (s3, Res.thrown) => (s3, Res.thrown)
    | (s3, Res.ok _) => (s3, Res.ok (some (pgid, fid)))
  | [] =>
    match evict s.replacer with
    | (r1, none) => ({ s with replacer := r1 }, Res.ok none)
    | (r1, some fid) =>
      let s1 : BPM := { s with replacer := r1 }
      let p := s1.pageAt fid
      let pgid := s1.next_page_id
      let s2 : BPM := { s1 with next_page_id := pgid + 1 }
      let s3 : BPM := if p.is_dirty then
          { s2 with disk_writes := s2.disk_writes ++ [p.page_id] } else s2
      match pageReset s3 fid pgid with
      | (s4, Res.thrown) => (s4, Res.thrown)
      | (s4, Res.ok _) => (s4, Res.ok (some (pgid, fid)))

/-- `FetchPgImp` (buffer_pool_manager_instance.cpp:177-203).  The
resident path returns `&pages_[fid]` and nothing else; the eviction path
passes the victim's own `p.page_id_` to `page_reset` before reading the
requested page from disk. -/
def fetchPgImp (s : BPM) (pgid : Int) : BPM × Res (Option Nat) :=
  match s.page_table.find pgid with
  | some fid => (s, Res.ok (some fid))
  | none =>
    match s.free_list with
    | fid :: rest =>
      let s1 : BPM := { s with free_list := rest }
      match pageReset s1 fid pgid with
      | (s2, Res.thrown) => (s2, Res.thrown)
      | (s2, Res.ok _) => (s2, Res.ok (some fid))
    | [] =>
      match evict s.replacer with
      | (r1, some fid) =>
        let s1 : BPM := { s with replacer := r1 }
        let p := s1.pageAt fid
        let s2 : BPM := if p.is_dirty then
            { s1 with disk_writes := s1.disk_writes ++ [p.page_id] } else s1
        match pageReset s2 fid p.page_id with
        | (s3, Res.thrown) => (s3, Res.thrown)
        | (s3, Res.ok _) => (s3, Res.ok (some fid))
      | (r1, none) => ({ s with replacer := r1 }, Res.ok none)

/-- `UnpinPgImp` (buffer_pool_manager_instance.cpp:205-218): fails on a
missing mapping or a non-positive pin count; otherwise decrements the
pin count, marks the frame evictable at zero, and assigns
`is_dirty_ = is_dirty`. -/
def unpinPgImp (s : BPM) (pgid : Int) (is_dirty : Bool) : BPM × Res Bool :=
  match s.page_table.find pgid with
  | none => (s, Res.ok false)
  | some fid =>
    let p := s.pageAt fid
    if p.pin_count ≤ 0 then (s, Res.ok false)
    else
      let p1 : BPage := { p with pin_count := p.pin_count - 1 }
      let s1 : BPM := { s with pages := s.pages.set fid p1 }
      if p1.pin_count == 0 then
        match setEvictable s1.replacer fid true with
        | (r2, Res.thrown) => ({ s1 with replacer := r2 }, Res.thrown)
        | (r2, Res.ok _) =>
          let s2 : BPM := { s1 with replacer := r2 }
          ({ s2 with pages := s2.pages.set fid { s2.pageAt fid with is_dirty := is_dirty } },
            Res.ok true)
      else
        ({ s1 with pages := s1.pages.set fid { s1.pageAt fid with is_dirty := is_dirty } },
          Res.ok true)

/-- `FlushPgImp` (buffer_pool_manager_instance.cpp:220-228). -/
def flushPgImp (s : BPM) (pgid : Int) : BPM × Res Bool :=
  match s.page_table.find pgid with
  | none => (s, Res.ok false)
  | some fid =>
    let p := s.pageAt fid
    ({ s with
         disk_writes := s.disk_writes ++ [pgid]
         pages := s.pages.set fid { p with is_dirty := false } }, Res.ok true)

/-- `DeletePgImp` (buffer_pool_manager_instance.cpp:245-259): succeeds on
a non-resident page; fails when pinned; otherwise removes the record and
the mapping, pushes the frame to the free list — and then calls
`page_reset(fid, page_id)`, which re-inserts the very mapping just
removed before throwing inside `SetEvictable`. -/
def deletePgImp (s : BPM) (pgid : Int) : BPM × Res Bool :=
  match s.page_table.find pgid with
  | none => (s, Res.ok true)
  | some fid =>
    let p := s.pageAt fid
    if p.pin_count > 0 then (s, Res.ok false)
    else
      match removeFrame s.replacer fid with
      | (r1, Res.thrown) => ({ s with replacer := r1 }, Res.thrown)
      | (r1, Res.ok _) =>
        let s1 : BPM := { s with replacer := r1 }
        let s2 : BPM := { s1 with page_table := (s1.page_table.removeKey pgid).1 }
        let s3 : BPM := { s2 with free_list := s2.free_list ++ [fid] }
        match pageReset s3 fid pgid with
        | (s4, Res.thrown) => (s4, Res.thrown)
        | (s4, Res.ok _) =>
          let p4 := s4.pageAt fid
          ({ s4 with pages := s4.pages.set fid { p4 with pin_count := 0 } }, Res.ok true)

/-- Invariant B1 of the spec as a decidable check on a manager state:
(i) every directory entry `(p, f)` points at a frame whose header holds
exactly `p`; (ii) every frame holding a non-`INVALID` page id is mapped
back to itself by the directory; (iii) no two frames hold the same
non-`INVALID` page id. -/
def bijectionB1 (s : BPM) : Bool :=
  s.page_table.entries.all (fun kv => (s.pageAt kv.2).page_id == kv.1) &&
  (List.range s.pool_size).all (fun fid =>
    (s.pageAt fid).page_id == -1 ||
      s.page_table.find (s.pageAt fid).page_id == some fid) &&
  (List.range s.pool_size).all (fun i =>
    (List.range s.pool_size).all (fun j =>
      i == j || (s.pageAt i).page_id == -1 ||
        (s.pageAt i).page_id != (s.pageAt j).page_id))

/-! Concrete manager trace for claim C1 (`pool_size = 1`, `k = 2`), all
four calls following C++ semantics (an exception escaping a call leaves
the mutations already performed in place; none of these calls is a range
violation, so per the spec none of them may abort):
`NewPage` installs page 0 in frame 0 and throws inside `page_reset`
(`SetEvictable` has no record, so `RecordAccess` is never reached);
`UnpinPage(0)` drops the pin to 0 and throws likewise; `DeletePage(0)`
removes the mapping, pushes frame 0 to the free list, then `page_reset`
re-inserts `0 → frame 0` before throwing; the second `NewPage` pops
frame 0, allocates page 1 and inserts `1 → frame 0`, leaving the stale
entry `0 → frame 0` behind. -/

def c1Trace1 : BPM := (newPgImp (BPM.init 1 2)).1

def c1Trace2 : BPM := (unpinPgImp c1Trace1 0 false).1

def c1Trace3 : BPM := (deletePgImp c1Trace2 0).1

def c1Trace4 : BPM := (newPgImp c1Trace3).1

/-- C1: the buffer pool operations do not preserve invariant B1.  After
the trace above the directory holds both `0 → frame 0` and
`1 → frame 0` while frame 0's header holds page 1, and `FetchPage(0)`
returns frame 0 — a frame that does not hold page 0.  (The initial
state does satisfy B1.)  Root causes: `DeletePgImp` calls
`page_reset(fid, page_id)` after removing the mapping, re-inserting it,
and neither eviction path ever removes the victim's page-table entry. -/
theorem bpm_bijection_violated_c1 :
    bijectionB1 (BPM.init 1 2) = true ∧
    bijectionB1 c1Trace4 = false ∧
    c1Trace4.page_table.entries = [(0, 0), (1, 0)] ∧
    (c1Trace4.pageAt 0).page_id = 1 ∧
    (fetchPgImp c1Trace4 0).2 = Res.ok (some 0) := by decide

/-- C2: for a resident page the code's `FetchPgImp` returns the mapped
frame and changes nothing at all — the pin count is not incremented, no
access is recorded in the replacer, and the frame is not marked
non-evictable (buffer_pool_manager_instance.cpp:199-201 is a bare
`return &pages_[fid];`).  The claim requires all three effects. -/
theorem bpm_fetch_resident_no_pin_c2 (s : BPM) (pgid : Int) (fid : Nat)
    (h : s.page_table.find pgid = some fid) :
    fetchPgImp s pgid = (s, Res.ok (some fid)) := by
  unfold fetchPgImp
  rw [h]

/-- C2 witness: after `NewPage` made page 0 resident in frame 0 with
pin count 1, `FetchPage(0)` returns frame 0 with the state — including
the pin count of 1 — unchanged. -/
theorem bpm_fetch_resident_no_pin_c2_witness :
    fetchPgImp c1Trace1 0 = (c1Trace1, Res.ok (some 0)) ∧
    (c1Trace1.pageAt 0).pin_count = 1 :=
  ⟨bpm_fetch_resident_no_pin_c2 c1Trace1 0 0 (by decide), by decide⟩

/-- A manager state in which page 7 is resident in frame 0 with
`pin_count = 2` and the dirty flag already set (as after an earlier
`UnpinPage(7, true)` by one of two fetchers). -/
def c3State : BPM :=
  { pool_size := 1
    pages := [{ page_id := 7, pin_count := 2, is_dirty := true }]
    page_table := (EHT.init 4).insert 7 0
    replacer := Replacer.init 1 2
    free_list := []
    next_page_id := 8
    disk_writes := []
    clock := 0 }

/-- C3: `UnpinPgImp` assigns `is_dirty_ = is_dirty`
(buffer_pool_manager_instance.cpp:216) instead of or-ing it, so
`UnpinPage(7, false)` on a frame whose dirty flag is set clears the
flag — the pending write-back is lost.  The claim requires
`dirty ← dirty ∨ is_dirty` (monotonic within a residency). -/
theorem bpm_unpin_overwrites_dirty_c3 :
    (unpinPgImp c3State 7 false).2 = Res.ok true ∧
    ((unpinPgImp c3State 7 false).1.pageAt 0).pin_count = 1 ∧
    ((unpinPgImp c3State 7 false).1.pageAt 0).is_dirty = false := by decide

/-- C10: whenever `UnpinPgImp` returns `false` the manager state is
untouched: both failure branches (`page_id` not in the page table, pin
count already non-positive) return before any mutation. -/
theorem bpm_unpin_fail_atomic_c10 (s : BPM) (pgid : Int) (d : Bool)
    (h : (unpinPgImp s pgid d).2 = Res.ok false) :
    (unpinPgImp s pgid d).1 = s := by
  unfold unpinPgImp at h ⊢
  cases hf : s.page_table.find pgid with
  | none => simp [hf]
  | some fid =>
    simp only [hf] at h ⊢
    by_cases hp : (s.pageAt fid).pin_count ≤ 0
    · simp [hp]
    · exfalso
      simp only [if_neg hp] at h
      split at h
      · rcases hse : setEvictable s.replacer fid true with ⟨r2, res⟩
        rw [hse] at h
        cases res <;> simp_all
      · simp_all

/-- C10 witness: unpinning a page that is resident nowhere in a fresh
pool returns `false` and leaves the state unchanged. -/
theorem bpm_unpin_fail_atomic_c10_witness :
    (unpinPgImp (BPM.init 1 2) 5 true).2 = Res.ok false ∧
    (unpinPgImp (BPM.init 1 2) 5 true).1 = BPM.init 1 2 :=
  ⟨by decide, bpm_unpin_fail_atomic_c10 (BPM.init 1 2) 5 true (by decide)⟩

/-! ## B+ tree pages and index
(`src/storage/page/b_plus_tree_leaf_page.cpp` first listing for the leaf
page, `b_plus_tree_internal_page.cpp` for the internal page, the
`b_plus_tree.cpp` listing at lines 107-730 for the index, and
`index_iterator.cpp`/`index_iterator.h` for the iterator)

Keys are modelled as `Nat` (the `GenericComparator` is a total order
with `comparator(a,b) > 0 ⇔ a > b`), leaf values (RIDs) as `Nat`, page
ids as `Int` with `INVALID_PAGE_ID = -1`.  A page's slot array is the
entry list; `size` is its length.  The index reaches pages through the
buffer pool contract of the spec (FetchPage returns the page stored
under an id, NewPage allocates a fresh id); the pin bookkeeping has no
effect on the values computed here and is analysed separately above, so
the page store is a plain association list. -/

inductive TreePage where
  | leaf (entries : List (Nat × Nat)) (maxSize : Nat) (parent : Int) (next : Int)
  | internal (entries : List (Nat × Int)) (maxSize : Nat) (parent : Int)
deriving Repr, DecidableEq

structure BTree where
  root_page_id : Int
  leaf_max_size : Nat
  internal_max_size : Nat
  store : List (Int × TreePage)
  next_alloc : Int
deriving Repr, DecidableEq

/-- `buffer_pool_manager_->FetchPage(pid)` under the spec contract. -/
def fetchTreePage (t : BTree) (pid : Int) : Option TreePage :=
  (t.store.find? (fun e => e.1 == pid)).map Prod.snd

/-- Write back a page under `pid` (overwrite or create). -/
def storeSet (st : List (Int × TreePage)) (pid : Int) (pg : TreePage) :
    List (Int × TreePage) :=
  if (st.find? (fun e => e.1 == pid)).isSome then
    st.map (fun e => if e.1 == pid then (pid, pg) else e)
  else st ++ [(pid, pg)]

/-- The shared scan of both page-level `Insert`s: find the first index
`i` with `comparator(key, KeyAt(i)) > 0`, shift `[i+1, size)` one slot
right, write the new pair at `i+1`, break; with no such index the loop
ends without inserting anything. -/
def pageInsertScan {β : Type} (entries : List (Nat × β)) (key : Nat) (value : β) :
    List (Nat × β) :=
  match entries with
  | [] => []
  | e :: rest =>
    if key > e.1 then e :: (key, value) :: rest
    else e :: pageInsertScan rest key value

/-- `B_PLUS_TREE_LEAF_PAGE_TYPE::Insert`
(b_plus_tree_leaf_page.cpp:67-79): the scan starts at slot 0. -/
def leafPageInsert (entries : List (Nat × Nat)) (key value : Nat) : List (Nat × Nat) :=
  pageInsertScan entries key value

/-- `B_PLUS_TREE_INTERNAL_PAGE_TYPE::Insert`
(b_plus_tree_internal_page.cpp:266-278): identical scan starting at
slot 1 (slot 0 holds the unused sentinel key). -/
def internalPageInsert (entries : List (Nat × Int)) (key : Nat) (value : Int) :
    List (Nat × Int) :=
  match entries with
  | [] => []
  | e0 :: rest => e0 :: pageInsertScan rest key value

/-- `MoveSplitedData` (b_plus_tree_leaf_page.cpp:81-89):
`offset = (size + 1) / 2` entries stay on the left, the rest move. -/
def moveSplitedData (entries : List (Nat × Nat)) : List (Nat × Nat) × List (Nat × Nat) :=
  let offset := (entries.length + 1) / 2
  (entries.take offset, entries.drop offset)

/-- Child selection inside `GetLeafPage` (b_plus_tree.cpp listing,
lines 145-151): `next = ValueAt(size-1)`, overridden by `ValueAt(i-1)`
at the first `i ≥ 1` with `KeyAt(i) > key`. -/
def childFor : (Nat × Int) → List (Nat × Int) → Nat → Int
  | prev, [], _ => prev.2
  | prev, e :: rest, key => if e.1 > key then prev.2 else childFor e rest key

/-- `GetLeafPage` (lines 135-154): descend from a page id to the leaf
responsible for `key`.  `none` models the crash on fetching a missing
page (as for an empty tree) or a malformed store; the fuel bounds the
walk, which the root-to-leaf paths evaluated here never exhaust. -/
def getLeafPage (t : BTree) (key : Nat) : Nat → Int → Option (Int × TreePage)
  | 0, _ => none
  | fuel + 1, pid =>
    match fetchTreePage t pid with
    | none => none
    | some pg =>
      match pg with
      | .leaf _ _ _ _ => some (pid, pg)
      | .internal entries _ _ =>
        match entries with
        | [] => none
        | e0 :: rest => getLeafPage t key fuel (childFor e0 rest key)

/-- `GetValue` (lines 156-171): scan every slot of the target leaf,
collecting the values of slots whose key compares equal. -/
def getValue (t : BTree) (key : Nat) : Option (Bool × List Nat) :=
  match getLeafPage t key (t.store.length + 1) t.root_page_id with
  | some (_, .leaf entries _ _ _) =>
    let vals := (entries.filter (fun kv => kv.1 == key)).map Prod.snd
    some (!vals.isEmpty, vals)
  | _ => none

/-- Set the `parent_page_id` header of every listed child page. -/
def reparentAll (st : List (Int × TreePage)) (childIds : List Int) (newParent : Int) :
    List (Int × TreePage) :=
  childIds.foldl (fun acc cid =>
    match (acc.find? (fun e => e.1 == cid)).map Prod.snd with
    | some (.leaf es ms _ nx) => storeSet acc cid (.leaf es ms newParent nx)
    | some (.internal es ms _) => storeSet acc cid (.internal es ms newParent)
    | none => acc) st

/-- The upward propagation loop of `Insert` (lines 225-272).  `oldId` and
`newId` are `old_node`/`new_node`; at the root a fresh internal root
`[(split, oldId), (split, newId)]` of size 2 is created.  Otherwise
`split` is inserted into the parent via the internal page `Insert`; when
the parent overflows, a sibling takes the upper half
(`offset = (size+1)/2`), its size is set to `internal_max_ - offset`
(line 264, as written), the moved children are reparented, and the loop
continues with the sibling's first key.  (The identifier typos of the
source — `new_parent_page` for `new_sibling_page`, `VauleAt` — are read
as the adjacent declared names.) -/
def insertPropagate (t : BTree) : Int → Int → Nat → Nat → Option BTree
  | _, _, _, 0 => none
  | oldId, newId, split, fuel + 1 =>
    match fetchTreePage t oldId with
    | none => none
    | some oldPg =>
      let oldParent := match oldPg with
        | .leaf _ _ par _ => par
        | .internal _ _ par => par
      if oldParent == -1 then
        let rootId := t.next_alloc
        let rootPg : TreePage := .internal [(split, oldId), (split, newId)] t.internal_max_size (-1)
        let st1 := storeSet t.store rootId rootPg
        let st2 := reparentAll st1 [oldId, newId] rootId
        some { t with root_page_id := rootId, next_alloc := rootId + 1, store := st2 }
      else
        match fetchTreePage t oldParent with
        | some (.internal pentries pmax pparent) =>
          let pentries2 := internalPageInsert pentries split newId
          let st1 := storeSet t.store oldParent (.internal pentries2 pmax pparent)
          let st2 := reparentAll st1 [newId] oldParent
          let t1 : BTree := { t with store := st2 }
          if pentries2.length ≤ t.internal_max_size then some t1
          else
            let sibId := t1.next_alloc
            let offset := (pentries2.length + 1) / 2
            let moved := pentries2.drop offset
            let sibEntries := moved.take (t.internal_max_size - offset)
            let st3 := storeSet t1.store oldParent (.internal (pentries2.take offset) pmax pparent)
            let st4 := storeSet st3 sibId (.internal sibEntries t.internal_max_size pparent)
            let st5 := reparentAll st4 (moved.map Prod.snd) sibId
            let t2 : BTree := { t1 with next_alloc := sibId + 1, store := st5 }
            match sibEntries with
            | [] => none
            | s0 :: _ => insertPropagate t2 oldParent sibId s0.1 fuel
        | _ => none

/-- `BPLUSTREE_TYPE::Insert` (lines 184-277).  Empty tree: a new leaf
root with the single entry.  Otherwise descend, reject duplicates,
insert into the leaf (page-level `Insert`), finish while
`GetSize() < leaf_max_size_`, else split the leaf — the new right leaf
takes the upper half and the old `next_page_id` — and propagate.  Note
line 223 sets `new_node = leaf_page` (not the new leaf), so the
propagated child id is the old leaf's and `split` is the old leaf's
first key, as written. -/
def btreeInsert (t : BTree) (key value : Nat) : Option (BTree × Bool) :=
  if t.root_page_id == -1 then
    let pid := t.next_alloc
    let pg : TreePage := .leaf [(key, value)] t.leaf_max_size (-1) (-1)
    some ({ t with
              root_page_id := pid
              next_alloc := pid + 1
              store := storeSet t.store pid pg }, true)
  else
    match getLeafPage t key (t.store.length + 1) t.root_page_id with
    | some (pid, .leaf entries maxSz parent next) =>
      if (entries.find? (fun kv => kv.1 == key)).isSome then some (t, false)
      else
        let entries2 := leafPageInsert entries key value
        if entries2.length < t.leaf_max_size then
          some ({ t with store := storeSet t.store pid (.leaf entries2 maxSz parent next) }, true)
        else
          let newLeafId := t.next_alloc
          let halves := moveSplitedData entries2
          let st1 := storeSet t.store pid (.leaf halves.1 maxSz parent newLeafId)
          let st2 := storeSet st1 newLeafId (.leaf halves.2 t.leaf_max_size parent next)
          let t1 : BTree := { t with next_alloc := newLeafId + 1, store := st2 }
          match halves.1 with
          | [] => none
          | l0 :: _ =>
            match insertPropagate t1 pid pid l0.1 (t1.store.length + 2) with
            | some t2 => some (t2, true)
            | none => none
    | _ => none

/-! ### Index iterator (`index_iterator.h`, `index_iterator.cpp`)

The iterator state is `(pg_id_, idx_, leaf_page_)`.  The constructor
used by `Begin()` — `IndexIterator(pg_id, idx, bpm)` — initialises only
`pg_id_`, `idx_` and the manager pointer; `leaf_page_` keeps its default
member value `nullptr`.  `leaf := none` models that null pointer, and an
operation that dereferences it returns `none`. -/

structure BIter where
  pg_id : Int
  idx : Nat
  leaf : Option TreePage
deriving Repr, DecidableEq

/-- `INDEXITERATOR_TYPE::IsEnd` (index_iterator.cpp listing, 1586-1589). -/
def iterIsEnd (it : BIter) : Bool := it.pg_id == -1

/-- `operator*`: `leaf_page_->array_[idx_]`. -/
def iterStar (it : BIter) : Option (Nat × Nat) :=
  match it.leaf with
  | some (.leaf es _ _ _) => es.get? it.idx
  | _ => none

/-- `operator++` (lines 1596-1617).  Within a leaf: `++idx_`.  Past the
last slot: `idx_ = 0`; with `nxt_id == INVALID` only `leaf_page_` is
nulled (`pg_id_` keeps its value); otherwise the code fetches
`pg_id_` — the page it is already on — and never assigns `pg_id_ = nxt_id`. -/
def iterAdvance (t : BTree) (it : BIter) : Option BIter :=
  if it.pg_id == -1 then some it
  else
    match it.leaf with
    | none => none
    | some (.internal _ _ _) => none
    | some (.leaf es _ _ nx) =>
      if it.idx + 1 < es.length then some { it with idx := it.idx + 1 }
      else
        if nx == -1 then some { it with idx := 0, leaf := none }
        else some { it with idx := 0, leaf := fetchTreePage t it.pg_id }

/-- `Begin()` (b_plus_tree.cpp listing, lines 465-481): descend along
`ValueAt(0)` to the leftmost leaf and build
`INDEXITERATOR_TYPE(page_id, 0, bpm)` — whose `leaf_page_` member the
constructor leaves null. -/
def btreeBeginAux (t : BTree) : Nat → Int → Option BIter
  | 0, _ => none
  | fuel + 1, pid =>
    match fetchTreePage t pid with
    | none => none
    | some (.leaf _ _ _ _) => some { pg_id := pid, idx := 0, leaf := none }
    | some (.internal entries _ _) =>
      match entries with
      | [] => none
      | e0 :: _ => btreeBeginAux t fuel e0.2

def btreeBegin (t : BTree) : Option BIter :=
  btreeBeginAux t (t.store.length + 1) t.root_page_id

/-- Ascending-key check for a page's entry list. -/
def keysAscending : List Nat → Bool
  | [] => true
  | [_] => true
  | a :: b :: t => decide (a < b) && keysAscending (b :: t)

/-- C5: the page-level ordered `Insert` does not produce a sorted page.
Into the ascending leaf `[(10,·),(20,·)]` (size 2, below any
`max_size ≥ 3`) it places key 30 right after the first smaller entry,
yielding keys `10, 30, 20`; a key smaller than every stored key (5 into
`[(10,·)]`) is dropped entirely; the internal-page variant misplaces
key 9 in `[·,(5,·),(8,·)]` the same way.  The claim — and §4.4 of the
spec ("places the new entry at its sorted position") — requires the
result to hold all old entries plus the new one in ascending order. -/
theorem page_insert_unsorted_c5 :
    leafPageInsert [(10, 100), (20, 200)] 30 300 = [(10, 100), (30, 300), (20, 200)] ∧
    keysAscending ((leafPageInsert [(10, 100), (20, 200)] 30 300).map Prod.fst) = false ∧
    leafPageInsert [(10, 100)] 5 50 = [(10, 100)] ∧
    internalPageInsert [(0, 10), (5, 11), (8, 12)] 9 13 =
      [(0, 10), (5, 11), (9, 13), (8, 12)] := by decide

/-- The empty tree with `leaf_max_size = internal_max_size = 3`. -/
def c4Tree0 : BTree :=
  { root_page_id := -1, leaf_max_size := 3, internal_max_size := 3
    store := [], next_alloc := 1 }

/-- C4: the insert/lookup round trip fails.  From the empty tree,
`Insert(5, 55)` and `Insert(2, 22)` both return `true`, yet
`GetValue(2)` afterwards returns "not found": the page-level `Insert`
never places a key smaller than every stored key (its scan looks for a
strictly smaller stored key and finds none), so the second entry is
silently dropped while the tree-level `Insert` still reports success. -/
theorem btree_roundtrip_fails_c4 :
    (btreeInsert c4Tree0 5 55).map Prod.snd = some true ∧
    ((btreeInsert c4Tree0 5 55).bind (fun r => btreeInsert r.1 2 22)).map Prod.snd =
      some true ∧
    ((btreeInsert c4Tree0 5 55).bind (fun r => btreeInsert r.1 2 22)).bind
      (fun r => getValue r.1 2) = some (false, []) := by decide

/-- A well-formed two-leaf tree: root internal page 10 over leaf 1
`{1, 2}` (with `next_page_id = 2`) and leaf 2 `{3}` (next invalid). -/
def c9Tree : BTree :=
  { root_page_id := 10, leaf_max_size := 3, internal_max_size := 3
    store := [(10, .internal [(0, 1), (3, 2)] 3 (-1)),
              (1, .leaf [(1, 11), (2, 12)] 3 10 2),
              (2, .leaf [(3, 13)] 3 10 (-1))]
    next_alloc := 11 }

/-- An iterator correctly positioned at slot 0 of leaf 1 with its leaf
view populated (the position `Begin()` is specified to produce). -/
def c9IterStart : BIter := { pg_id := 1, idx := 0, leaf := fetchTreePage c9Tree 1 }

/-- C9: the range scan neither enumerates the keys nor terminates.
(i) `Begin()` builds the iterator with `leaf_page_` still null, so the
very first `operator++` dereferences a null pointer, and `IsEnd()` is
`false` there.  (ii) Even from a correctly populated iterator on leaf 1,
advancing past the last slot of the leaf re-fetches `pg_id_` — the leaf
it is already on — instead of `next_page_id`, and never reassigns
`pg_id_`: after two advances the iterator is back at slot 0 of leaf 1
reading key 1 again (a duplicate), never reaching leaf 2's key 3, and
`IsEnd()` is still `false`; with `next == INVALID` the code nulls
`leaf_page_` but keeps `pg_id_`, so `IsEnd()` can never become true and
the enumeration never terminates. -/
theorem btree_iterator_stuck_c9 :
    (btreeBegin c9Tree).map BIter.leaf = some none ∧
    ((btreeBegin c9Tree).bind (iterAdvance c9Tree)) = none ∧
    (btreeBegin c9Tree).map iterIsEnd = some false ∧
    (iterAdvance c9Tree c9IterStart).bind (iterAdvance c9Tree) = some c9IterStart ∧
    ((iterAdvance c9Tree c9IterStart).bind (iterAdvance c9Tree)).bind iterStar =
      some (1, 11) ∧
    ((iterAdvance c9Tree c9IterStart).bind (iterAdvance c9Tree)).map iterIsEnd =
      some false := by decide

end StorageCore
